import Mathlib

/-!
# Credentials API: data layer and request handlers

A shallow embedding of `internal/data/comments.go` (the `Credential` entity,
`ValidateCredential` and the `CredentialModel` store operations) and of
`cmd/api/comments.go` (the request handlers).

Conventions of the embedding:

* a Go `string` is a `String`; `len(s)` is the number of bytes, `String.utf8ByteSize`;
* `int64` identifiers and the `int32` version are `Int` (the Go code does no
  arithmetic on them; the increment happens inside the database);
* a `*Credential` that may be `nil` is an `Option Credential`, dereferencing
  `nil` is the outcome `panicked`;
* `database/sql` and `net/mail` are not part of the repository: the database
  is a `Driver` (what each call answers) and `mail.ParseAddress` is a parameter.
-/

namespace CredentialsApi

/-! ## internal/validator -/

/-- Modelled from the spec: the package `internal/validator` is not among the
sources. A validator is the accumulator of §4.1, its `Errors` kept in the order
in which the messages were recorded, one entry per field. -/
structure Validator where
  Errors : List (String × String)
deriving DecidableEq, Repr

namespace Validator

/-- Modelled from the spec: `validator.New()`, an accumulator with nothing recorded. -/
def New : Validator := ⟨[]⟩

/-- Modelled from the spec: `IsEmpty()` of §4.1, no message has been recorded. -/
def IsEmpty (v : Validator) : Bool := v.Errors.isEmpty

/-- The message recorded for `field`, if any (`v.Errors[field]`). -/
def lookup (v : Validator) (field : String) : Option String :=
  (v.Errors.find? (fun e => e.1 == field)).map (fun e => e.2)

/-- Modelled from the spec: `Check(condition, field, message)` of §4.1. When
`condition` is false it records `message` keyed by `field`; the first message of
a field wins and later checks on an already failed field are ignored. -/
def Check (v : Validator) (condition : Bool) (field message : String) : Validator :=
  if condition then v
  else if (v.lookup field).isSome then v
  else ⟨v.Errors ++ [(field, message)]⟩

/-- All entries recorded under `field`. -/
def messagesFor (v : Validator) (field : String) : List (String × String) :=
  v.Errors.filter (fun e => e.1 == field)

end Validator

/-! ## internal/data: the entity and its validation -/

/-- The struct `Credential` of `internal/data/comments.go`. -/
structure Credential where
  ID : Int
  Created_at : Int
  Email_address : String
  Name : String
  Version : Int
deriving DecidableEq, Repr

/-- Go's `len(s)` on a string: its length in bytes. -/
def len (s : String) : Nat := s.utf8ByteSize

/-- The answer of `mail.ParseAddress` that the code looks at: `true` when the
returned error is `nil`. The library is external, so it is a parameter. -/
abbrev AddressParser := String → Bool

/-- The function `ValidateCredential` of `internal/data/comments.go`. -/
def ValidateCredential (ParseAddress : AddressParser) (v : Validator)
    (credential : Credential) : Validator :=
  let v := v.Check (credential.Email_address != "") "email_address" "must be provided"
  let v := v.Check (credential.Name != "") "name" "must be provided"
  let v := v.Check (len credential.Email_address ≤ 50) "email_address"
    "must not be more than 50 bytes long"
  let v := v.Check (len credential.Name ≤ 25) "name" "must not be more than 25 bytes long"
  if ParseAddress credential.Email_address then v
  else v.Check false "email_address" "invalid email provided"

/-- A parser used to evaluate the definitions on concrete inputs: it accepts
the strings that contain an `@`. -/
def sampleParser : AddressParser := fun s => s.data.contains '@'

/-! ## internal/data: errors and the database handle -/

/-- An error coming out of `database/sql` or the driver. `ErrNoRows` is the
sentinel `sql.ErrNoRows`, `wrap` an error that wraps another one, `other` any
other failure (lost connection, the 3-second deadline, a conversion in `Scan`). -/
inductive DbError where
  | ErrNoRows
  | other (msg : String)
  | wrap (msg : String) (inner : DbError)
deriving DecidableEq, Repr

/-- Go's `errors.Is(err, sql.ErrNoRows)`. -/
def DbError.isErrNoRows : DbError → Bool
  | .ErrNoRows => true
  | .other _ => false
  | .wrap _ inner => inner.isErrNoRows

/-- A Go `error` returned by a `CredentialModel` method: the package's sentinel
`ErrRecordNotFound` or a database error handed through unchanged. -/
inductive Error where
  | ErrRecordNotFound
  | db (err : DbError)
deriving DecidableEq, Repr

/-- Go's `errors.Is(err, data.ErrRecordNotFound)`. -/
def Error.isErrRecordNotFound : Error → Bool
  | .ErrRecordNotFound => true
  | .db _ => false

/-- The five SQL statements of `internal/data/comments.go` with their arguments,
in the order of the placeholders. -/
inductive Stmt where
  | insert (name email_address : String)
  | selectByID (id : Int)
  | selectAll (content author : String)
  | update (email_address name : String) (id : Int)
  | delete (id : Int)
deriving DecidableEq, Repr

/-- What the database answers. `QueryRow` is `QueryRowContext(...).Scan(...)`:
the row the statement returns (the destinations of `Scan` pick their columns
from it) or the error of `Scan`. `Query` is `QueryContext`: an error, or the
rows that `Next` steps through, each with the outcome of its `Scan`. `Exec` is
`ExecContext`: an error, or a result whose `RowsAffected()` is a count or an
error. The state `σ` is whatever the database keeps between calls. -/
structure Driver (σ : Type) where
  QueryRow : σ → Stmt → σ × Except DbError Credential
  Query : σ → Stmt → σ × Except DbError (List (Except DbError Credential))
  Exec : σ → Stmt → σ × Except DbError (Except DbError Int)

/-- The connection pool as the program sees it: the state of the database and
the statements issued so far. -/
structure Conn (σ : Type) where
  state : σ
  issued : List Stmt

/-- The call `DB.QueryRowContext(ctx, query, args...).Scan(...)`. -/
def QueryRowContext {σ : Type} (db : Driver σ) (conn : Conn σ) (q : Stmt) :
    Conn σ × Except DbError Credential :=
  (⟨(db.QueryRow conn.state q).1, conn.issued ++ [q]⟩, (db.QueryRow conn.state q).2)

/-- The call `DB.QueryContext(ctx, query, args...)`. -/
def QueryContext {σ : Type} (db : Driver σ) (conn : Conn σ) (q : Stmt) :
    Conn σ × Except DbError (List (Except DbError Credential)) :=
  (⟨(db.Query conn.state q).1, conn.issued ++ [q]⟩, (db.Query conn.state q).2)

/-- The call `DB.ExecContext(ctx, query, args...)`. -/
def ExecContext {σ : Type} (db : Driver σ) (conn : Conn σ) (q : Stmt) :
    Conn σ × Except DbError (Except DbError Int) :=
  (⟨(db.Exec conn.state q).1, conn.issued ++ [q]⟩, (db.Exec conn.state q).2)

/-- The struct `CredentialModel`. -/
structure CredentialModel (σ : Type) where
  DB : Driver σ

namespace CredentialModel

variable {σ : Type}

/-- The method `CredentialModel.Insert`: the passed credential with `ID`,
`Created_at` and `Version` scanned from the returned row, and the error of `Scan`. -/
def Insert (c : CredentialModel σ) (conn : Conn σ) (credential : Credential) :
    Conn σ × Credential × Option Error :=
  match QueryRowContext c.DB conn (.insert credential.Name credential.Email_address) with
  | (conn, .ok row) =>
    (conn, { credential with ID := row.ID, Created_at := row.Created_at, Version := row.Version },
      none)
  | (conn, .error err) => (conn, credential, some (.db err))

/-- The method `CredentialModel.Get`. -/
def Get (c : CredentialModel σ) (conn : Conn σ) (id : Int) :
    Conn σ × Option Credential × Option Error :=
  if id < 1 then (conn, none, some .ErrRecordNotFound)
  else
    match QueryRowContext c.DB conn (.selectByID id) with
    | (conn, .error err) =>
      if err.isErrNoRows then (conn, none, some .ErrRecordNotFound)
      else (conn, none, some (.db err))
    | (conn, .ok credential) => (conn, some credential, none)

/-- The loop `for credentials.Next() { ... Scan ... append ... }` of `GetAll`. -/
def scanAll : List (Except DbError Credential) → List Credential →
    Except DbError (List Credential)
  | [], credential => .ok credential
  | .error err :: _, _ => .error err
  | .ok tempCredential :: rest, credential => scanAll rest (credential ++ [tempCredential])

/-- The method `CredentialModel.GetAll`. -/
def GetAll (c : CredentialModel σ) (conn : Conn σ) (content author : String) :
    Conn σ × Option (List Credential) × Option Error :=
  match QueryContext c.DB conn (.selectAll content author) with
  | (conn, .error err) =>
    if err.isErrNoRows then (conn, none, some .ErrRecordNotFound)
    else (conn, none, some (.db err))
  | (conn, .ok credentials) =>
    match scanAll credentials [] with
    | .error err => (conn, none, some (.db err))
    | .ok credential => (conn, some credential, none)

/-- The method `CredentialModel.Update`: the passed credential with `Version`
scanned from the returned row, and the error of `Scan`. -/
def Update (c : CredentialModel σ) (conn : Conn σ) (credential : Credential) :
    Conn σ × Credential × Option Error :=
  match QueryRowContext c.DB conn
      (.update credential.Email_address credential.Name credential.ID) with
  | (conn, .ok row) => (conn, { credential with Version := row.Version }, none)
  | (conn, .error err) => (conn, credential, some (.db err))

/-- The method `CredentialModel.Delete`. -/
def Delete (c : CredentialModel σ) (conn : Conn σ) (id : Int) : Conn σ × Option Error :=
  if id < 1 then (conn, some .ErrRecordNotFound)
  else
    match ExecContext c.DB conn (.delete id) with
    | (conn, .error err) => (conn, some (.db err))
    | (conn, .ok result) =>
      match result with
      | .error err => (conn, some (.db err))
      | .ok rowsAffected =>
        if rowsAffected == 0 then (conn, some .ErrRecordNotFound) else (conn, none)

end CredentialModel

/-! ## cmd/api: requests, responses and the helpers of the handlers -/

/-- The JSON envelope of a response: its single key and the value under it.
A `nil` credential or collection is `none` (encoded as `null`). -/
inductive Body where
  | credential (c : Option Credential)
  | credentials (cs : Option (List Credential))
  | message (m : String)
  | error
  | errors (fields : List (String × String))
deriving DecidableEq, Repr

/-- One response written to the client: status code, `Location` header, envelope. -/
structure Response where
  status : Nat
  location : Option String
  body : Body
deriving DecidableEq, Repr

/-- The `http.ResponseWriter` of a request: the responses written to it so far,
and whether encoding or sending through it fails. -/
structure ResponseWriter where
  written : List Response
  failing : Bool
deriving DecidableEq, Repr

/-- The destination struct of `readJSON` in `createCommentHandler`. -/
structure CreateData where
  Email_address : String
  Name : String
deriving DecidableEq, Repr

/-- The destination struct of `readJSON` in `updateCommentHandler`: a field is
`none` when the body does not carry it (a `nil` pointer). -/
structure UpdateData where
  Email_address : Option String
  Name : Option String
deriving DecidableEq, Repr

/-- The `*http.Request` as the handlers read it, through helpers that are not
among the sources: the outcome of decoding its body into either destination
struct, its `:id` path parameter and its query parameters. -/
structure Request where
  id : Option Int
  createBody : Except String CreateData
  updateBody : Except String UpdateData
  content : Option String
  author : Option String

/-- Modelled from the spec: the helper `readIDParam` is not among the sources.
Per §4.4 it parses `id` from the path and fails when it is unparsable; with the
error it returns the zero value of `int64`. -/
def readIDParam (r : Request) : Int × Option String :=
  match r.id with
  | some id => (id, none)
  | none => (0, some "invalid id parameter")

/-- Modelled from the spec: the helper `getSingleQueryParameter` is not among
the sources. Per §4.4 a query parameter defaults to the given value when absent. -/
def getSingleQueryParameter (value : Option String) (defaultValue : String) : String :=
  value.getD defaultValue

/-- Modelled from the spec: the helper `writeJSON` is not among the sources. It
writes one response with the given status, headers and envelope, or reports an
error and writes nothing. -/
def writeJSON (w : ResponseWriter) (status : Nat) (data : Body) (location : Option String) :
    ResponseWriter × Option String :=
  if w.failing then (w, some "writeJSON failed")
  else ({ w with written := w.written ++ [⟨status, location, data⟩] }, none)

/-- Modelled from the spec: the error helpers are not among the sources. Per §7
each writes one response with its status and a body under the key `error`. -/
def errorResponse (w : ResponseWriter) (status : Nat) (data : Body) : ResponseWriter :=
  { w with written := w.written ++ [⟨status, none, data⟩] }

/-- Modelled from the spec: `badRequestResponse`, status 400 (§7). -/
def badRequestResponse (w : ResponseWriter) : ResponseWriter := errorResponse w 400 .error

/-- Modelled from the spec: `notFoundResponse`, status 404 (§7). -/
def notFoundResponse (w : ResponseWriter) : ResponseWriter := errorResponse w 404 .error

/-- Modelled from the spec: `serverErrorResponse`, status 500 (§7). -/
def serverErrorResponse (w : ResponseWriter) : ResponseWriter := errorResponse w 500 .error

/-- Modelled from the spec: `failedValidationResponse`, status 422 with the
field to message mapping (§7). -/
def failedValidationResponse (w : ResponseWriter) (errors : List (String × String)) :
    ResponseWriter :=
  errorResponse w 422 (.errors errors)

/-- The struct `applicationDependences`, with the address parser the data
package calls. -/
structure applicationDependences (σ : Type) where
  credentialModel : CredentialModel σ
  ParseAddress : AddressParser

/-- Where a handler leaves the world: the database connection, the response
writer, and whether it ended in a run-time panic (a `nil` dereference). -/
structure Handled (σ : Type) where
  conn : Conn σ
  w : ResponseWriter
  panicked : Bool

/-- The merge of `updateCommentHandler` (the two `if incomingData.X != nil`
blocks) on a credential that is not `nil`. -/
def mergeIncomingData (credential : Credential) (incomingData : UpdateData) : Credential :=
  let credential :=
    match incomingData.Email_address with
    | some email => { credential with Email_address := email }
    | none => credential
  match incomingData.Name with
  | some name => { credential with Name := name }
  | none => credential

section Handlers

variable {σ : Type}

/-- The tail of the handlers: `writeJSON` and, on its error, `serverErrorResponse`. -/
def respond (conn : Conn σ) (w : ResponseWriter) (status : Nat) (data : Body)
    (location : Option String) : Handled σ :=
  match writeJSON w status data location with
  | (w, some _) => ⟨conn, serverErrorResponse w, false⟩
  | (w, none) => ⟨conn, w, false⟩

/-- The handler `createCommentHandler`. -/
def createCommentHandler (a : applicationDependences σ) (conn : Conn σ) (w : ResponseWriter)
    (r : Request) : Handled σ :=
  match r.createBody with
  | .error _ => ⟨conn, badRequestResponse w, false⟩
  | .ok incomingData =>
    let credential : Credential :=
      { ID := 0, Created_at := 0, Email_address := incomingData.Email_address,
        Name := incomingData.Name, Version := 0 }
    let v := ValidateCredential a.ParseAddress Validator.New credential
    if !v.IsEmpty then ⟨conn, failedValidationResponse w v.Errors, false⟩
    else
      match a.credentialModel.Insert conn credential with
      | (conn, _, some _) => ⟨conn, serverErrorResponse w, false⟩
      | (conn, credential, none) =>
        respond conn w 201 (.credential (some credential))
          (some ("/v1/comments/" ++ toString credential.ID))

/-- The helper `fetchCommentByID`: the connection and writer after it, and the
pair `(credential, err)` it returns. -/
def fetchCommentByID (a : applicationDependences σ) (conn : Conn σ) (w : ResponseWriter)
    (r : Request) : Conn σ × ResponseWriter × Option Credential × Option Error :=
  let w :=
    match (readIDParam r).2 with
    | some _ => notFoundResponse w
    | none => w
  match a.credentialModel.Get conn (readIDParam r).1 with
  | (conn, credential, some err) =>
    if err.isErrRecordNotFound then (conn, notFoundResponse w, credential, none)
    else (conn, serverErrorResponse w, credential, none)
  | (conn, credential, none) => (conn, w, credential, none)

/-- The handler `displayCommentHandler`. -/
def displayCommentHandler (a : applicationDependences σ) (conn : Conn σ) (w : ResponseWriter)
    (r : Request) : Handled σ :=
  match fetchCommentByID a conn w r with
  | (conn, w, _, some _) => ⟨conn, w, false⟩
  | (conn, w, credential, none) => respond conn w 200 (.credential credential) none

/-- The handler `updateCommentHandler`. With a `nil` credential the first
access to one of its fields panics: in the merge when the body carries a field,
otherwise in `ValidateCredential`. -/
def updateCommentHandler (a : applicationDependences σ) (conn : Conn σ) (w : ResponseWriter)
    (r : Request) : Handled σ :=
  match fetchCommentByID a conn w r with
  | (conn, w, _, some _) => ⟨conn, w, false⟩
  | (conn, w, credential, none) =>
    match r.updateBody with
    | .error _ => ⟨conn, badRequestResponse w, false⟩
    | .ok incomingData =>
      match credential with
      | none => ⟨conn, w, true⟩
      | some credential =>
        let credential := mergeIncomingData credential incomingData
        let v := ValidateCredential a.ParseAddress Validator.New credential
        if !v.IsEmpty then ⟨conn, failedValidationResponse w v.Errors, false⟩
        else
          match a.credentialModel.Update conn credential with
          | (conn, _, some _) => ⟨conn, serverErrorResponse w, false⟩
          | (conn, credential, none) => respond conn w 200 (.credential (some credential)) none

/-- The handler `deleteCommentHandler`. -/
def deleteCommentHandler (a : applicationDependences σ) (conn : Conn σ) (w : ResponseWriter)
    (r : Request) : Handled σ :=
  match (readIDParam r).2 with
  | some _ => ⟨conn, notFoundResponse w, false⟩
  | none =>
    match a.credentialModel.Delete conn (readIDParam r).1 with
    | (conn, some err) =>
      if err.isErrRecordNotFound then ⟨conn, notFoundResponse w, false⟩
      else ⟨conn, serverErrorResponse w, false⟩
    | (conn, none) =>
      respond conn w 200 (.message "signup credentials deleted successfully") none

/-- The handler `listCommentHandler`. -/
def listCommentHandler (a : applicationDependences σ) (conn : Conn σ) (w : ResponseWriter)
    (r : Request) : Handled σ :=
  let content := getSingleQueryParameter r.content ""
  let author := getSingleQueryParameter r.author ""
  match a.credentialModel.GetAll conn content author with
  | (conn, _, some err) =>
    if err.isErrRecordNotFound then ⟨conn, notFoundResponse w, false⟩
    else ⟨conn, serverErrorResponse w, false⟩
  | (conn, credentials, none) => respond conn w 200 (.credentials credentials) none

end Handlers

/-! ## The database: the table `credentials` -/

/-- The table `credentials` and what the database needs to fill a new row:
the next value of the `id` sequence and the current time. -/
structure Table where
  rows : List Credential
  nextID : Int
  now : Int
deriving DecidableEq, Repr

/-- The largest value of the database type `integer` (and of Go's `int32`). -/
def maxInt32 : Int := 2147483647

/-- The `SET` clause of the update statement applied to one row. -/
def setRow (email_address name : String) (row : Credential) : Credential :=
  { row with Email_address := email_address, Name := name, Version := row.Version + 1 }

/-- The row of the table with the given `id`, if any. -/
def Table.byID (t : Table) (id : Int) : Option Credential :=
  t.rows.find? (fun row => row.ID == id)

/-- Modelled from the spec: the schema and the SQL engine are not among the
sources. The five statements of `internal/data/comments.go` run against the
table of §3 and §6: `id` is assigned from a sequence, `created_at` is the
current time, `version` starts at 1 and is an `integer` (incrementing it past
its largest value is an error that changes nothing); a single-row query that
finds no row answers `sql.ErrNoRows`. `tsMatch column filter` stands for
`to_tsvector('simple', column) @@ plainto_tsquery('simple', filter)`. -/
def pg (tsMatch : String → String → Bool) : Driver Table where
  QueryRow t q :=
    match q with
    | .insert name email_address =>
      ({ t with rows := t.rows ++ [⟨t.nextID, t.now, email_address, name, 1⟩],
                nextID := t.nextID + 1 },
        .ok ⟨t.nextID, t.now, email_address, name, 1⟩)
    | .selectByID id =>
      match t.byID id with
      | some row => (t, .ok row)
      | none => (t, .error .ErrNoRows)
    | .update email_address name id =>
      match t.byID id with
      | none => (t, .error .ErrNoRows)
      | some row =>
        if maxInt32 < row.Version + 1 then (t, .error (.other "integer out of range"))
        else
          ({ t with rows := t.rows.map (fun r =>
              if r.ID == id then setRow email_address name r else r) },
            .ok (setRow email_address name row))
    | _ => (t, .error (.other "not a statement of a single-row query"))
  Query t q :=
    match q with
    | .selectAll content author =>
      (t, .ok ((t.rows.filter (fun row =>
        (tsMatch row.Email_address content || content == "") &&
        (tsMatch row.Name author || author == ""))).map .ok))
    | _ => (t, .error (.other "not a statement of a multi-row query"))
  Exec t q :=
    match q with
    | .delete id =>
      ({ t with rows := t.rows.filter (fun row => !(row.ID == id)) },
        .ok (.ok ((t.rows.filter (fun row => row.ID == id)).length : Int)))
    | _ => (t, .error (.other "not a statement of an exec"))

/-- A database that keeps no state and gives the same three answers to every
call: used to evaluate the store on each possible answer. -/
def answering (row : Except DbError Credential)
    (rows : Except DbError (List (Except DbError Credential)))
    (result : Except DbError (Except DbError Int)) : Driver Unit where
  QueryRow _ _ := ((), row)
  Query _ _ := ((), rows)
  Exec _ _ := ((), result)

/-- The statement carries field values that pass every rule of §4.2. -/
def validFields (ParseAddress : AddressParser) (email_address name : String) : Prop :=
  email_address ≠ "" ∧ len email_address ≤ 50 ∧ ParseAddress email_address = true ∧
    name ≠ "" ∧ len name ≤ 25

/-- Every insert and update statement in the list carries valid field values. -/
def writesValid (ParseAddress : AddressParser) (issued : List Stmt) : Prop :=
  ∀ q ∈ issued,
    (∀ name email_address, q = .insert name email_address →
      validFields ParseAddress email_address name) ∧
    (∀ email_address name id, q = .update email_address name id →
      validFields ParseAddress email_address name)

/-- No insert and no update statement is in the list. -/
def noWrites (issued : List Stmt) : Prop :=
  ∀ q ∈ issued, (∀ name email_address, q ≠ .insert name email_address) ∧
    (∀ email_address name id, q ≠ .update email_address name id)

/-- An application over the in-memory table with the sample parser. -/
def sampleApp : applicationDependences Table :=
  ⟨⟨pg (fun column filter => column == filter)⟩, sampleParser⟩

/-- A table with one row, `id = 1`. -/
def sampleTable : Table := ⟨[⟨1, 100, "a@b.com", "Ann", 1⟩], 2, 200⟩

/-- A request for the given `id` with an empty JSON object as body. -/
def sampleRequest (id : Option Int) : Request :=
  ⟨id, .ok ⟨"", ""⟩, .ok ⟨none, none⟩, none, none⟩

/-! ## Validation -/

theorem len_empty : len "" = 0 := rfl

theorem ne_empty_of_len_pos {s : String} (h : 0 < len s) : s ≠ "" := by
  intro hs
  rw [hs, len_empty] at h
  exact absurd h (by decide)

/-- The message `ValidateCredential` leaves for `email_address` on a fresh
validator is the one of the first failing rule. -/
theorem ValidateCredential_lookup_email (ParseAddress : AddressParser)
    (credential : Credential) :
    (ValidateCredential ParseAddress Validator.New credential).lookup "email_address" =
      if credential.Email_address = "" then some "must be provided"
      else if 50 < len credential.Email_address then
        some "must not be more than 50 bytes long"
      else if ParseAddress credential.Email_address = false then
        some "invalid email provided"
      else none := by
  by_cases h1 : credential.Email_address = "" <;>
  by_cases h2 : credential.Name = "" <;>
  by_cases h3 : 50 < len credential.Email_address <;>
  by_cases h4 : len credential.Name ≤ 25 <;>
  by_cases h5 : ParseAddress credential.Email_address = true <;>
  simp [ValidateCredential, Validator.Check, Validator.lookup, Validator.New, h1, h2, h3, h4,
    h5, len_empty, List.find?, Nat.not_le.mpr, Nat.le_of_not_lt]

/-- On a fresh validator `ValidateCredential` records at most one entry for
`email_address`. -/
theorem ValidateCredential_email_entries (ParseAddress : AddressParser)
    (credential : Credential) :
    ((ValidateCredential ParseAddress Validator.New credential).messagesFor
      "email_address").length ≤ 1 := by
  by_cases h1 : credential.Email_address = "" <;>
  by_cases h2 : credential.Name = "" <;>
  by_cases h3 : 50 < len credential.Email_address <;>
  by_cases h4 : len credential.Name ≤ 25 <;>
  by_cases h5 : ParseAddress credential.Email_address = true <;>
  simp [ValidateCredential, Validator.Check, Validator.lookup, Validator.New,
    Validator.messagesFor, h1, h2, h3, h4, h5, len_empty, List.find?, List.filter,
    Nat.not_le.mpr, Nat.le_of_not_lt]

/-- The errors of a credential that passes every rule: none. -/
theorem ValidateCredential_errors_of_valid (ParseAddress : AddressParser)
    (credential : Credential) (h1 : credential.Email_address ≠ "")
    (h2 : credential.Name ≠ "") (h3 : len credential.Email_address ≤ 50)
    (h4 : len credential.Name ≤ 25) (h5 : ParseAddress credential.Email_address = true) :
    (ValidateCredential ParseAddress Validator.New credential).Errors = [] := by
  simp [ValidateCredential, Validator.Check, Validator.New, h1, h2, h3, h4, h5]

/-- A credential that leaves a fresh validator empty passes every rule. -/
theorem validFields_of_IsEmpty (ParseAddress : AddressParser) (credential : Credential)
    (h : (ValidateCredential ParseAddress Validator.New credential).IsEmpty = true) :
    validFields ParseAddress credential.Email_address credential.Name := by
  by_cases h1 : credential.Email_address = "" <;>
  by_cases h2 : credential.Name = "" <;>
  by_cases h3 : 50 < len credential.Email_address <;>
  by_cases h4 : len credential.Name ≤ 25 <;>
  by_cases h5 : ParseAddress credential.Email_address = true <;>
  simp [ValidateCredential, Validator.Check, Validator.lookup, Validator.New,
    Validator.IsEmpty, h1, h2, h3, h4, h5, len_empty, List.find?,
    Nat.not_le.mpr, Nat.le_of_not_lt] at h
  exact ⟨h1, Nat.le_of_not_lt h3, h5, h2, h4⟩

/-- C6: a credential whose `email_address` is at most 50 bytes long and parses
as an address and whose `name` is non-empty and at most 25 bytes long leaves a
fresh validator empty. `mail.ParseAddress` rejects the empty string, which is
the one fact about the library the statement relies on. -/
theorem ValidateCredential_valid_IsEmpty (ParseAddress : AddressParser)
    (hlib : ParseAddress "" = false) (credential : Credential)
    (hemail : len credential.Email_address ≤ 50)
    (hparse : ParseAddress credential.Email_address = true)
    (hname : credential.Name ≠ "") (hnamelen : len credential.Name ≤ 25) :
    (ValidateCredential ParseAddress Validator.New credential).IsEmpty = true := by
  have h1 : credential.Email_address ≠ "" := by
    intro h
    rw [h, hlib] at hparse
    exact Bool.false_ne_true hparse
  rw [Validator.IsEmpty,
    ValidateCredential_errors_of_valid ParseAddress credential h1 hname hemail hnamelen hparse]
  rfl

theorem ValidateCredential_valid_IsEmpty_witness :
    (ValidateCredential sampleParser Validator.New ⟨0, 0, "a@b.com", "Ann", 0⟩).IsEmpty = true :=
  ValidateCredential_valid_IsEmpty sampleParser (by decide) ⟨0, 0, "a@b.com", "Ann", 0⟩
    (by decide) (by decide) (by decide) (by decide)

/-- C7: for a credential with an empty `name`, whatever its `email_address`,
`ValidateCredential` on a fresh validator records under `name` the message
"must be provided" and nothing else. -/
theorem ValidateCredential_empty_name (ParseAddress : AddressParser) (credential : Credential)
    (hname : credential.Name = "") :
    (ValidateCredential ParseAddress Validator.New credential).messagesFor "name" =
        [("name", "must be provided")] ∧
      (ValidateCredential ParseAddress Validator.New credential).lookup "name" =
        some "must be provided" := by
  by_cases h1 : credential.Email_address = "" <;>
  by_cases h3 : 50 < len credential.Email_address <;>
  by_cases h5 : ParseAddress credential.Email_address = true <;>
  simp [ValidateCredential, Validator.Check, Validator.lookup, Validator.New,
    Validator.messagesFor, h1, hname, h3, h5, len_empty, List.find?, List.filter,
    Nat.not_le.mpr, Nat.le_of_not_lt]

theorem ValidateCredential_empty_name_witness :
    (ValidateCredential sampleParser Validator.New ⟨0, 0, "not an address", "", 0⟩).messagesFor
        "name" = [("name", "must be provided")] ∧
      (ValidateCredential sampleParser Validator.New ⟨0, 0, "not an address", "", 0⟩).lookup
        "name" = some "must be provided" :=
  ValidateCredential_empty_name sampleParser ⟨0, 0, "not an address", "", 0⟩ rfl

/-- C10: on a fresh validator the message of `email_address` is the one of the
first failing rule: "must be provided" when it is empty, "must not be more than
50 bytes long" when it is longer than 50 bytes, "invalid email provided" exactly
when it is non-empty, at most 50 bytes long and does not parse as an address,
and no message exactly in the remaining case; the field never has two entries. -/
theorem ValidateCredential_email_first_failing_rule (ParseAddress : AddressParser)
    (credential : Credential) :
    (credential.Email_address = "" →
      (ValidateCredential ParseAddress Validator.New credential).lookup "email_address" =
        some "must be provided") ∧
    (50 < len credential.Email_address →
      (ValidateCredential ParseAddress Validator.New credential).lookup "email_address" =
        some "must not be more than 50 bytes long") ∧
    ((ValidateCredential ParseAddress Validator.New credential).lookup "email_address" =
        some "invalid email provided" ↔
      credential.Email_address ≠ "" ∧ len credential.Email_address ≤ 50 ∧
        ParseAddress credential.Email_address = false) ∧
    ((ValidateCredential ParseAddress Validator.New credential).lookup "email_address" = none ↔
      credential.Email_address ≠ "" ∧ len credential.Email_address ≤ 50 ∧
        ParseAddress credential.Email_address = true) ∧
    ((ValidateCredential ParseAddress Validator.New credential).messagesFor
      "email_address").length ≤ 1 := by
  rw [ValidateCredential_lookup_email]
  refine ⟨?_, ?_, ?_, ?_, ValidateCredential_email_entries ParseAddress credential⟩
  · intro h
    simp [h]
  · intro h
    simp [h, ne_empty_of_len_pos (Nat.lt_trans (by decide : 0 < 50) h)]
  · by_cases h1 : credential.Email_address = "" <;>
    by_cases h3 : 50 < len credential.Email_address <;>
    by_cases h5 : ParseAddress credential.Email_address = true <;>
    simp [h1, h3, h5, Nat.not_le.mpr, Nat.le_of_not_lt]
  · by_cases h1 : credential.Email_address = "" <;>
    by_cases h3 : 50 < len credential.Email_address <;>
    by_cases h5 : ParseAddress credential.Email_address = true <;>
    simp [h1, h3, h5, Nat.not_le.mpr, Nat.le_of_not_lt]

theorem ValidateCredential_email_first_failing_rule_witness :
    (ValidateCredential sampleParser Validator.New ⟨0, 0, "", "Ann", 0⟩).lookup "email_address" =
      some "must be provided" :=
  (ValidateCredential_email_first_failing_rule sampleParser ⟨0, 0, "", "Ann", 0⟩).1 rfl

/-! ## The merge of a partial update -/

/-- C8: the merge of `updateCommentHandler` overwrites `email_address` only
when the body carries it and `name` only when the body carries it (an absent
field keeps the stored value), and never changes `id`, `created_at`, `version`. -/
theorem mergeIncomingData_frame (credential : Credential) (incomingData : UpdateData) :
    (mergeIncomingData credential incomingData).Email_address =
        incomingData.Email_address.getD credential.Email_address ∧
      (mergeIncomingData credential incomingData).Name =
        incomingData.Name.getD credential.Name ∧
      (mergeIncomingData credential incomingData).ID = credential.ID ∧
      (mergeIncomingData credential incomingData).Created_at = credential.Created_at ∧
      (mergeIncomingData credential incomingData).Version = credential.Version := by
  rcases incomingData with ⟨_ | email, _ | name⟩ <;> simp [mergeIncomingData]

/-! ## The store -/

section Store

variable {σ : Type}

/-- C3: `Get` with `id < 1` returns `ErrRecordNotFound` and leaves the
connection as it was (no statement issued); with `id ≥ 1` it issues the one
select, returns `ErrRecordNotFound` exactly when the row query fails with an
error that is `sql.ErrNoRows`, returns any other error of the query unchanged,
and otherwise returns the scanned credential with a nil error. -/
theorem Get_contract (c : CredentialModel σ) (conn : Conn σ) (id : Int) :
    (id < 1 → c.Get conn id = (conn, none, some .ErrRecordNotFound)) ∧
    (1 ≤ id →
      (c.Get conn id).1 = (QueryRowContext c.DB conn (.selectByID id)).1 ∧
      (c.Get conn id).1.issued = conn.issued ++ [.selectByID id] ∧
      (∀ err, (c.DB.QueryRow conn.state (.selectByID id)).2 = .error err →
        err.isErrNoRows = true → (c.Get conn id).2 = (none, some .ErrRecordNotFound)) ∧
      (∀ err, (c.DB.QueryRow conn.state (.selectByID id)).2 = .error err →
        err.isErrNoRows = false → (c.Get conn id).2 = (none, some (.db err))) ∧
      (∀ row, (c.DB.QueryRow conn.state (.selectByID id)).2 = .ok row →
        (c.Get conn id).2 = (some row, none)) ∧
      ((c.Get conn id).2.2 = some .ErrRecordNotFound ↔
        ∃ err, (c.DB.QueryRow conn.state (.selectByID id)).2 = .error err ∧
          err.isErrNoRows = true)) := by
  constructor
  · intro hid
    simp [CredentialModel.Get, hid]
  · intro hid
    have hid' : ¬ id < 1 := by omega
    cases h : (c.DB.QueryRow conn.state (.selectByID id)).2 with
    | error err =>
      cases he : err.isErrNoRows <;>
        simp [CredentialModel.Get, hid', QueryRowContext, h, he]
    | ok row => simp [CredentialModel.Get, hid', QueryRowContext, h]

theorem Get_contract_witness :
    CredentialModel.Get ⟨pg (fun _ _ => false)⟩ ⟨sampleTable, []⟩ 0 =
        (⟨sampleTable, []⟩, none, some .ErrRecordNotFound) ∧
      (CredentialModel.Get ⟨pg (fun _ _ => false)⟩ ⟨sampleTable, []⟩ 1).2 =
        (some ⟨1, 100, "a@b.com", "Ann", 1⟩, none) ∧
      (CredentialModel.Get ⟨pg (fun _ _ => false)⟩ ⟨sampleTable, []⟩ 5).2 =
        (none, some .ErrRecordNotFound) :=
  ⟨(Get_contract ⟨pg (fun _ _ => false)⟩ ⟨sampleTable, []⟩ 0).1 (by decide),
    ((Get_contract ⟨pg (fun _ _ => false)⟩ ⟨sampleTable, []⟩ 1).2 (by decide)).2.2.2.2.1 _ rfl,
    ((Get_contract ⟨pg (fun _ _ => false)⟩ ⟨sampleTable, []⟩ 5).2 (by decide)).2.2.1 _ rfl rfl⟩

/-- The rows that remain after the delete statement hold no row of that `id`. -/
theorem byID_after_delete (t : Table) (id : Int) :
    Table.byID { t with rows := t.rows.filter (fun row => !(row.ID == id)) } id = none := by
  simp [Table.byID, List.find?_eq_none]

/-- A table without a row of that `id` counts zero rows for the delete statement. -/
theorem filter_length_of_byID_none (t : Table) (id : Int) (h : t.byID id = none) :
    ((t.rows.filter (fun row => row.ID == id)).length : Int) = 0 := by
  simp only [Table.byID, List.find?_eq_none] at h
  have : t.rows.filter (fun row => row.ID == id) = [] := by
    rw [List.filter_eq_nil_iff]
    exact h
  simp [this]

/-- C4: `Delete` with `id < 1` returns `ErrRecordNotFound` and leaves the
connection as it was (no statement executed); with `id ≥ 1` it executes the one
delete, returns `ErrRecordNotFound` when zero rows were affected, nil when at
least one row was, and an error of the exec or of `RowsAffected` unchanged.
Hence on the table, deleting an `id` that has no row, or one that has just been
deleted, yields `ErrRecordNotFound`. -/
theorem Delete_contract (c : CredentialModel σ) (conn : Conn σ) (id : Int)
    (tsMatch : String → String → Bool) (t : Table) (issued : List Stmt) :
    (id < 1 → c.Delete conn id = (conn, some .ErrRecordNotFound)) ∧
    (1 ≤ id →
      (c.Delete conn id).1 = (ExecContext c.DB conn (.delete id)).1 ∧
      (c.Delete conn id).1.issued = conn.issued ++ [.delete id] ∧
      ((c.DB.Exec conn.state (.delete id)).2 = .ok (.ok 0) →
        (c.Delete conn id).2 = some .ErrRecordNotFound) ∧
      (∀ n : Int, n ≠ 0 → (c.DB.Exec conn.state (.delete id)).2 = .ok (.ok n) →
        (c.Delete conn id).2 = none) ∧
      (∀ err, (c.DB.Exec conn.state (.delete id)).2 = .error err →
        (c.Delete conn id).2 = some (.db err)) ∧
      (∀ err, (c.DB.Exec conn.state (.delete id)).2 = .ok (.error err) →
        (c.Delete conn id).2 = some (.db err))) ∧
    (t.byID id = none →
      (CredentialModel.Delete ⟨pg tsMatch⟩ ⟨t, issued⟩ id).2 = some .ErrRecordNotFound) ∧
    (CredentialModel.Delete ⟨pg tsMatch⟩
        (CredentialModel.Delete ⟨pg tsMatch⟩ ⟨t, issued⟩ id).1 id).2 =
      some .ErrRecordNotFound := by
  have key : ∀ (t : Table) (issued : List Stmt), t.byID id = none →
      (CredentialModel.Delete ⟨pg tsMatch⟩ ⟨t, issued⟩ id).2 = some .ErrRecordNotFound := by
    intro t issued h
    by_cases hid : id < 1
    · simp [CredentialModel.Delete, hid]
    · simp [CredentialModel.Delete, hid, ExecContext, pg, filter_length_of_byID_none t id h]
  refine ⟨?_, ?_, key t issued, ?_⟩
  · intro hid
    simp [CredentialModel.Delete, hid]
  · intro hid
    have hid' : ¬ id < 1 := by omega
    refine ⟨?_, ?_, ?_, ?_, ?_, ?_⟩
    · cases h : (c.DB.Exec conn.state (.delete id)).2 with
      | error err => simp [CredentialModel.Delete, hid', ExecContext, h]
      | ok result =>
        cases result with
        | error err => simp [CredentialModel.Delete, hid', ExecContext, h]
        | ok n => by_cases hn : n = 0 <;> simp [CredentialModel.Delete, hid', ExecContext, h, hn]
    · cases h : (c.DB.Exec conn.state (.delete id)).2 with
      | error err => simp [CredentialModel.Delete, hid', ExecContext, h]
      | ok result =>
        cases result with
        | error err => simp [CredentialModel.Delete, hid', ExecContext, h]
        | ok n => by_cases hn : n = 0 <;> simp [CredentialModel.Delete, hid', ExecContext, h, hn]
    · intro h
      simp [CredentialModel.Delete, hid', ExecContext, h]
    · intro n hn h
      simp [CredentialModel.Delete, hid', ExecContext, h, hn]
    · intro err h
      simp [CredentialModel.Delete, hid', ExecContext, h]
    · intro err h
      simp [CredentialModel.Delete, hid', ExecContext, h]
  · by_cases hid : id < 1
    · simp [CredentialModel.Delete, hid]
    · have h1 : (CredentialModel.Delete ⟨pg tsMatch⟩ ⟨t, issued⟩ id).1.state =
          { t with rows := t.rows.filter (fun row => !(row.ID == id)) } := by
        by_cases hn : ((t.rows.filter (fun row => row.ID == id)).length : Int) = 0 <;>
          simp [CredentialModel.Delete, hid, ExecContext, pg, hn]
      have h2 := key _ (CredentialModel.Delete ⟨pg tsMatch⟩ ⟨t, issued⟩ id).1.issued
        (byID_after_delete t id)
      rw [← h1] at h2
      exact h2

theorem Delete_contract_witness :
    CredentialModel.Delete ⟨pg (fun _ _ => false)⟩ ⟨sampleTable, []⟩ 0 =
        (⟨sampleTable, []⟩, some .ErrRecordNotFound) ∧
      (CredentialModel.Delete ⟨pg (fun _ _ => false)⟩ ⟨sampleTable, []⟩ 1).2 = none ∧
      (CredentialModel.Delete ⟨pg (fun _ _ => false)⟩ ⟨sampleTable, []⟩ 7).2 =
        some .ErrRecordNotFound :=
  ⟨(Delete_contract ⟨pg (fun _ _ => false)⟩ ⟨sampleTable, []⟩ 0 (fun _ _ => false)
      sampleTable []).1 (by decide),
    ((Delete_contract ⟨pg (fun _ _ => false)⟩ ⟨sampleTable, []⟩ 1 (fun _ _ => false)
      sampleTable []).2.1 (by decide)).2.2.2.1 1 (by decide) rfl,
    (Delete_contract ⟨pg (fun _ _ => false)⟩ ⟨sampleTable, []⟩ 7 (fun _ _ => false)
      sampleTable []).2.2.1 rfl⟩

/-- C5, as stated, fails: when `QueryContext` reports `sql.ErrNoRows`, `GetAll`
returns `ErrRecordNotFound` and no collection. -/
theorem GetAll_ErrNoRows_is_ErrRecordNotFound :
    (CredentialModel.GetAll
        ⟨answering (.error .ErrNoRows) (.error .ErrNoRows) (.error .ErrNoRows)⟩
        ⟨(), []⟩ "" "").2 = (none, some .ErrRecordNotFound) ∧
      (CredentialModel.GetAll
        ⟨answering (.error .ErrNoRows) (.error .ErrNoRows) (.error .ErrNoRows)⟩
        ⟨(), []⟩ "" "").2 ≠ (some [], none) := by
  constructor
  · rfl
  · intro h
    cases h

/-- C5, amended: `GetAll` returns `ErrRecordNotFound` exactly when
`QueryContext` itself fails with an error that is (or wraps) `sql.ErrNoRows`;
when the query succeeds and yields zero rows it returns an empty collection with
a nil error. -/
theorem GetAll_contract (c : CredentialModel σ) (conn : Conn σ) (content author : String) :
    ((c.GetAll conn content author).2.2 = some .ErrRecordNotFound ↔
      ∃ err, (c.DB.Query conn.state (.selectAll content author)).2 = .error err ∧
        err.isErrNoRows = true) ∧
    ((c.DB.Query conn.state (.selectAll content author)).2 = .ok [] →
      (c.GetAll conn content author).2 = (some [], none)) := by
  cases h : (c.DB.Query conn.state (.selectAll content author)).2 with
  | error err =>
    cases he : err.isErrNoRows <;> simp [CredentialModel.GetAll, QueryContext, h, he]
  | ok rows =>
    constructor
    · cases hs : CredentialModel.scanAll rows [] <;>
        simp [CredentialModel.GetAll, QueryContext, h, hs]
    · intro hrows
      cases hrows
      simp [CredentialModel.GetAll, QueryContext, h, CredentialModel.scanAll]

theorem GetAll_contract_witness :
    (CredentialModel.GetAll ⟨pg (fun _ _ => false)⟩ ⟨sampleTable, []⟩ "zed" "").2 =
      (some [], none) :=
  (GetAll_contract ⟨pg (fun _ _ => false)⟩ ⟨sampleTable, []⟩ "zed" "").2 rfl

/-- The row of an `id` after the update statement is the old row with the
`SET` clause applied. -/
theorem byID_after_update (t : Table) (email_address name : String) (id : Int) :
    Table.byID { t with rows := t.rows.map (fun r =>
        if r.ID == id then setRow email_address name r else r) } id =
      (t.byID id).map (setRow email_address name) := by
  simp only [Table.byID, List.find?_map]
  have hfun : ((fun row : Credential => row.ID == id) ∘
      fun r => if (r.ID == id) = true then setRow email_address name r else r) =
      fun row : Credential => row.ID == id := by
    funext r
    by_cases h : r.ID = id <;> simp [h, setRow]
  rw [hfun]
  cases hf : List.find? (fun row : Credential => row.ID == id) t.rows with
  | none => rfl
  | some row =>
    have := List.find?_some hf
    simp only [beq_iff_eq] at this
    simp [this]

/-- What a successful `Update` on the table does. -/
theorem Update_pg_ok (tsMatch : String → String → Bool) (t : Table) (issued : List Stmt)
    (credential row : Credential) (conn1 : Conn Table) (credential1 : Credential)
    (hrow : t.byID credential.ID = some row)
    (hok : CredentialModel.Update ⟨pg tsMatch⟩ ⟨t, issued⟩ credential =
      (conn1, credential1, none)) :
    conn1.state.byID credential.ID =
        some (setRow credential.Email_address credential.Name row) ∧
      credential1 = { credential with Version := row.Version + 1 } := by
  by_cases hv : maxInt32 < row.Version + 1
  · simp [CredentialModel.Update, QueryRowContext, pg, hrow, hv] at hok
  · simp only [CredentialModel.Update, QueryRowContext, pg, hrow, hv, if_false,
      Prod.mk.injEq] at hok
    obtain ⟨h1, h2, -⟩ := hok
    subst h1
    subst h2
    refine ⟨?_, ?_⟩
    · show Table.byID _ credential.ID = _
      rw [byID_after_update, hrow]
      rfl
    · simp [setRow]

/-- C9: on the table, a successful `Update` of a credential whose row exists
stores the previous stored version plus one, returns that version in the passed
credential, leaves the credential's `id`, `created_at`, `email_address` and
`name` as they were (and the row's `id` and `created_at` too); a second
successful `Update` stores and returns the original version plus two. -/
theorem Update_increments_version (tsMatch : String → String → Bool) (t : Table)
    (issued : List Stmt) (credential row : Credential) (conn1 : Conn Table)
    (credential1 : Credential)
    (hrow : t.byID credential.ID = some row)
    (hok : CredentialModel.Update ⟨pg tsMatch⟩ ⟨t, issued⟩ credential =
      (conn1, credential1, none)) :
    conn1.state.byID credential.ID =
        some { row with Email_address := credential.Email_address, Name := credential.Name,
                        Version := row.Version + 1 } ∧
      credential1 = { credential with Version := row.Version + 1 } ∧
      (∀ (conn2 : Conn Table) (credential2 : Credential),
        CredentialModel.Update ⟨pg tsMatch⟩ conn1 credential1 = (conn2, credential2, none) →
        conn2.state.byID credential.ID =
            some { row with Email_address := credential.Email_address,
                            Name := credential.Name, Version := row.Version + 2 } ∧
          credential2 = { credential with Version := row.Version + 2 }) := by
  obtain ⟨h1, h2⟩ := Update_pg_ok tsMatch t issued credential row conn1 credential1 hrow hok
  refine ⟨h1, h2, ?_⟩
  intro conn2 credential2 hok2
  have hid : credential1.ID = credential.ID := by rw [h2]
  have hrow1 : conn1.state.byID credential1.ID =
      some (setRow credential.Email_address credential.Name row) := by rw [hid]; exact h1
  obtain ⟨h3, h4⟩ := Update_pg_ok tsMatch conn1.state conn1.issued credential1 _ conn2
    credential2 hrow1 hok2
  rw [hid] at h3
  subst h2
  refine ⟨?_, ?_⟩
  · rw [h3]
    simp [setRow, add_assoc]
  · rw [h4]
    simp [setRow, add_assoc]

theorem Update_increments_version_witness :
    sampleTable.byID 1 = some ⟨1, 100, "a@b.com", "Ann", 1⟩ ∧
      CredentialModel.Update ⟨pg (fun _ _ => false)⟩ ⟨sampleTable, []⟩
          ⟨1, 0, "c@d.org", "Annie", 0⟩ =
        (⟨⟨[⟨1, 100, "c@d.org", "Annie", 2⟩], 2, 200⟩, [.update "c@d.org" "Annie" 1]⟩,
          ⟨1, 0, "c@d.org", "Annie", 2⟩, none) ∧
      (⟨[⟨1, 100, "c@d.org", "Annie", 2⟩], 2, 200⟩ : Table).byID 1 =
        some ⟨1, 100, "c@d.org", "Annie", 1 + 1⟩ ∧
      (⟨[⟨1, 100, "c@d.org", "Annie", 3⟩], 2, 200⟩ : Table).byID 1 =
        some ⟨1, 100, "c@d.org", "Annie", 1 + 2⟩ :=
  ⟨rfl, rfl,
    (Update_increments_version (fun _ _ => false) sampleTable [] ⟨1, 0, "c@d.org", "Annie", 0⟩
      ⟨1, 100, "a@b.com", "Ann", 1⟩
      ⟨⟨[⟨1, 100, "c@d.org", "Annie", 2⟩], 2, 200⟩, [.update "c@d.org" "Annie" 1]⟩
      ⟨1, 0, "c@d.org", "Annie", 2⟩ rfl rfl).1,
    ((Update_increments_version (fun _ _ => false) sampleTable [] ⟨1, 0, "c@d.org", "Annie", 0⟩
      ⟨1, 100, "a@b.com", "Ann", 1⟩
      ⟨⟨[⟨1, 100, "c@d.org", "Annie", 2⟩], 2, 200⟩, [.update "c@d.org" "Annie" 1]⟩
      ⟨1, 0, "c@d.org", "Annie", 2⟩ rfl rfl).2.2
      ⟨⟨[⟨1, 100, "c@d.org", "Annie", 3⟩], 2, 200⟩,
        [.update "c@d.org" "Annie" 1, .update "c@d.org" "Annie" 1]⟩
      ⟨1, 0, "c@d.org", "Annie", 3⟩ rfl).1⟩

end Store

/-! ## The handlers -/

section HandlerProofs

variable {σ : Type}

theorem respond_conn (conn : Conn σ) (w : ResponseWriter) (status : Nat) (data : Body)
    (location : Option String) : (respond conn w status data location).conn = conn := by
  cases hf : w.failing <;> simp [respond, writeJSON, hf]

theorem Insert_issued (c : CredentialModel σ) (conn : Conn σ) (credential : Credential) :
    (c.Insert conn credential).1.issued =
      conn.issued ++ [.insert credential.Name credential.Email_address] := by
  cases h : (c.DB.QueryRow conn.state
      (.insert credential.Name credential.Email_address)).2 <;>
    simp [CredentialModel.Insert, QueryRowContext, h]

theorem Update_issued (c : CredentialModel σ) (conn : Conn σ) (credential : Credential) :
    (c.Update conn credential).1.issued =
      conn.issued ++ [.update credential.Email_address credential.Name credential.ID] := by
  cases h : (c.DB.QueryRow conn.state
      (.update credential.Email_address credential.Name credential.ID)).2 <;>
    simp [CredentialModel.Update, QueryRowContext, h]

theorem Get_issued (c : CredentialModel σ) (conn : Conn σ) (id : Int) :
    (c.Get conn id).1.issued = conn.issued ∨
      (c.Get conn id).1.issued = conn.issued ++ [.selectByID id] := by
  by_cases hid : id < 1
  · left
    simp [CredentialModel.Get, hid]
  · right
    cases h : (c.DB.QueryRow conn.state (.selectByID id)).2 with
    | error err =>
      cases he : err.isErrNoRows <;> simp [CredentialModel.Get, hid, QueryRowContext, h, he]
    | ok row => simp [CredentialModel.Get, hid, QueryRowContext, h]

/-- The error `fetchCommentByID` returns is always nil, the credential and the
connection are those of `Get`. -/
theorem fetchCommentByID_result (a : applicationDependences σ) (conn : Conn σ)
    (w : ResponseWriter) (r : Request) :
    (fetchCommentByID a conn w r).2.2.2 = none ∧
      (fetchCommentByID a conn w r).2.2.1 = (a.credentialModel.Get conn (readIDParam r).1).2.1 ∧
      (fetchCommentByID a conn w r).1 = (a.credentialModel.Get conn (readIDParam r).1).1 := by
  rcases h : a.credentialModel.Get conn (readIDParam r).1 with ⟨conn1, credential, _ | err⟩
  · simp [fetchCommentByID, h]
  · cases he : err.isErrRecordNotFound <;> simp [fetchCommentByID, h, he]

theorem noWrites_nil : noWrites [] := by
  intro q hq
  cases hq

theorem noWrites_select (id : Int) : noWrites [.selectByID id] := by
  intro q hq
  simp only [List.mem_singleton] at hq
  subst hq
  exact ⟨fun _ _ h => (by cases h), fun _ _ _ h => (by cases h)⟩

theorem writesValid_of_noWrites (ParseAddress : AddressParser) (issued : List Stmt)
    (h : noWrites issued) : writesValid ParseAddress issued := by
  intro q hq
  exact ⟨fun n e hqe => absurd hqe ((h q hq).1 n e),
    fun e n i hqe => absurd hqe ((h q hq).2 e n i)⟩

theorem writesValid_append (ParseAddress : AddressParser) (l₁ l₂ : List Stmt)
    (h₁ : writesValid ParseAddress l₁) (h₂ : writesValid ParseAddress l₂) :
    writesValid ParseAddress (l₁ ++ l₂) := by
  intro q hq
  rcases List.mem_append.mp hq with h | h
  · exact h₁ q h
  · exact h₂ q h

theorem writesValid_insert (ParseAddress : AddressParser) (name email_address : String)
    (h : validFields ParseAddress email_address name) :
    writesValid ParseAddress [.insert name email_address] := by
  intro q hq
  simp only [List.mem_singleton] at hq
  subst hq
  refine ⟨fun n e hqe => ?_, fun _ _ _ hqe => (by cases hqe)⟩
  cases hqe
  exact h

theorem writesValid_update (ParseAddress : AddressParser) (name email_address : String)
    (id : Int) (h : validFields ParseAddress email_address name) :
    writesValid ParseAddress [.update email_address name id] := by
  intro q hq
  simp only [List.mem_singleton] at hq
  subst hq
  refine ⟨fun _ _ hqe => (by cases hqe), fun e n i hqe => ?_⟩
  cases hqe
  exact h

/-- The statements `createCommentHandler` issues: none, or the insert of the
decoded fields after they passed validation. -/
theorem createCommentHandler_issued (a : applicationDependences σ) (s : σ)
    (w : ResponseWriter) (r : Request) :
    writesValid a.ParseAddress (createCommentHandler a ⟨s, []⟩ w r).conn.issued := by
  cases hb : r.createBody with
  | error e =>
    simp only [createCommentHandler, hb]
    exact writesValid_of_noWrites _ _ noWrites_nil
  | ok incomingData =>
    cases hv : (ValidateCredential a.ParseAddress Validator.New
        ⟨0, 0, incomingData.Email_address, incomingData.Name, 0⟩).IsEmpty with
    | false =>
      simp only [createCommentHandler, hb, hv]
      exact writesValid_of_noWrites _ _ noWrites_nil
    | true =>
      have hvalid := validFields_of_IsEmpty a.ParseAddress _ hv
      have hiss := Insert_issued a.credentialModel ⟨s, []⟩
        ⟨0, 0, incomingData.Email_address, incomingData.Name, 0⟩
      rcases hi : a.credentialModel.Insert ⟨s, []⟩
          ⟨0, 0, incomingData.Email_address, incomingData.Name, 0⟩ with ⟨conn1, c1, _ | err⟩
      all_goals
        rw [hi] at hiss
        simp only [List.nil_append] at hiss
        simp only [createCommentHandler, hb, hv, hi, respond_conn, Bool.not_true,
          Bool.false_eq_true, if_false]
        rw [hiss]
        exact writesValid_insert _ _ _ hvalid

/-- The statements `updateCommentHandler` issues: at most the select of
`fetchCommentByID`, then possibly the update of the merged fields after they
passed validation. -/
theorem updateCommentHandler_issued (a : applicationDependences σ) (s : σ)
    (w : ResponseWriter) (r : Request) :
    writesValid a.ParseAddress (updateCommentHandler a ⟨s, []⟩ w r).conn.issued := by
  obtain ⟨herr, -, hconn⟩ := fetchCommentByID_result a ⟨s, []⟩ w r
  have hsel : noWrites (fetchCommentByID a ⟨s, []⟩ w r).1.issued := by
    rw [hconn]
    rcases Get_issued a.credentialModel ⟨s, []⟩ (readIDParam r).1 with h | h
    · rw [h]
      exact noWrites_nil
    · rw [h]
      exact noWrites_select _
  rcases hf : fetchCommentByID a ⟨s, []⟩ w r with ⟨conn1, w1, credential, err⟩
  rw [hf] at herr hsel
  simp only at herr hsel
  subst herr
  have hbase := writesValid_of_noWrites a.ParseAddress _ hsel
  cases hb : r.updateBody with
  | error e =>
    simp only [updateCommentHandler, hf, hb]
    exact hbase
  | ok incomingData =>
    cases credential with
    | none =>
      simp only [updateCommentHandler, hf, hb]
      exact hbase
    | some credential =>
      cases hv : (ValidateCredential a.ParseAddress Validator.New
          (mergeIncomingData credential incomingData)).IsEmpty with
      | false =>
        simp only [updateCommentHandler, hf, hb, hv]
        exact hbase
      | true =>
        have hvalid := validFields_of_IsEmpty a.ParseAddress _ hv
        have hiss := Update_issued a.credentialModel conn1
          (mergeIncomingData credential incomingData)
        rcases hu : a.credentialModel.Update conn1
            (mergeIncomingData credential incomingData) with ⟨conn2, c2, _ | err⟩
        all_goals
          rw [hu] at hiss
          simp only [updateCommentHandler, hf, hb, hv, hu, respond_conn, Bool.not_true,
            Bool.false_eq_true, if_false]
          rw [hiss]
          exact writesValid_append _ _ _ hbase (writesValid_update _ _ _ _ hvalid)

/-- C2: a create request whose credential fails `ValidateCredential` on a fresh
validator is answered with the one response 422 carrying the field-keyed errors
and issues no statement; an update request whose merged credential fails it is
answered likewise and issues nothing beyond the select of the fetch. Hence every
insert and update statement the two handlers issue carries a non-empty
`email_address` of at most 50 bytes that parses as an address and a non-empty
`name` of at most 25 bytes. -/
theorem handlers_validate_before_store (a : applicationDependences σ) (s : σ)
    (w : ResponseWriter) (r : Request) :
    (∀ incomingData, r.createBody = .ok incomingData →
      (ValidateCredential a.ParseAddress Validator.New
        ⟨0, 0, incomingData.Email_address, incomingData.Name, 0⟩).IsEmpty = false →
      (createCommentHandler a ⟨s, []⟩ w r).w.written = w.written ++ [⟨422, none, .errors
        (ValidateCredential a.ParseAddress Validator.New
          ⟨0, 0, incomingData.Email_address, incomingData.Name, 0⟩).Errors⟩] ∧
      (createCommentHandler a ⟨s, []⟩ w r).conn.issued = [] ∧
      (createCommentHandler a ⟨s, []⟩ w r).conn.state = s) ∧
    (∀ id conn1 credential incomingData, r.id = some id →
      a.credentialModel.Get ⟨s, []⟩ id = (conn1, some credential, none) →
      r.updateBody = .ok incomingData →
      (ValidateCredential a.ParseAddress Validator.New
        (mergeIncomingData credential incomingData)).IsEmpty = false →
      (updateCommentHandler a ⟨s, []⟩ w r).w.written = w.written ++ [⟨422, none, .errors
        (ValidateCredential a.ParseAddress Validator.New
          (mergeIncomingData credential incomingData)).Errors⟩] ∧
      (updateCommentHandler a ⟨s, []⟩ w r).conn.issued = conn1.issued ∧
      (updateCommentHandler a ⟨s, []⟩ w r).conn.state = conn1.state ∧
      noWrites (updateCommentHandler a ⟨s, []⟩ w r).conn.issued) ∧
    writesValid a.ParseAddress (createCommentHandler a ⟨s, []⟩ w r).conn.issued ∧
    writesValid a.ParseAddress (updateCommentHandler a ⟨s, []⟩ w r).conn.issued := by
  refine ⟨?_, ?_, createCommentHandler_issued a s w r, updateCommentHandler_issued a s w r⟩
  · intro incomingData hb hv
    simp [createCommentHandler, hb, hv, failedValidationResponse, errorResponse]
  · intro id conn1 credential incomingData hid hget hb hv
    have hsel : noWrites conn1.issued := by
      have h := Get_issued a.credentialModel ⟨s, []⟩ id
      rw [hget] at h
      rcases h with h | h
      · simp only at h
        rw [h]
        exact noWrites_nil
      · simp only [List.nil_append] at h
        rw [h]
        exact noWrites_select _
    have hf : fetchCommentByID a ⟨s, []⟩ w r = (conn1, w, some credential, none) := by
      simp [fetchCommentByID, readIDParam, hid, hget]
    simp only [updateCommentHandler, hf, hb, hv, failedValidationResponse, errorResponse,
      Bool.not_false, if_true]
    exact ⟨trivial, trivial, trivial, hsel⟩

theorem handlers_validate_before_store_witness :
    (createCommentHandler sampleApp ⟨sampleTable, []⟩ ⟨[], false⟩
        (sampleRequest none)).w.written =
      [⟨422, none, .errors [("email_address", "must be provided"),
        ("name", "must be provided")]⟩] ∧
    (updateCommentHandler sampleApp ⟨sampleTable, []⟩ ⟨[], false⟩
        ⟨some 1, .ok ⟨"", ""⟩, .ok ⟨some "nobody", none⟩, none, none⟩).w.written =
      [⟨422, none, .errors [("email_address", "invalid email provided")]⟩] :=
  ⟨((handlers_validate_before_store sampleApp sampleTable ⟨[], false⟩
      (sampleRequest none)).1 ⟨"", ""⟩ rfl (by decide)).1,
    ((handlers_validate_before_store sampleApp sampleTable ⟨[], false⟩
      ⟨some 1, .ok ⟨"", ""⟩, .ok ⟨some "nobody", none⟩, none, none⟩).2.1 1
      ⟨sampleTable, [.selectByID 1]⟩ ⟨1, 100, "a@b.com", "Ann", 1⟩ ⟨some "nobody", none⟩
      rfl rfl rfl (by decide)).1⟩

/-- C1, the code at a request whose `id` parses and has no row: `Get` returns
`ErrRecordNotFound`, `fetchCommentByID` writes the 404 and returns a nil
credential with a nil error, so `displayCommentHandler` writes a second response
(200 with a null credential) and `updateCommentHandler` goes on to decode the
body and panics on the nil credential. With an unparsable `id` two 404 responses
are written. -/
theorem fetchCommentByID_failure_not_reported :
    (CredentialModel.Get sampleApp.credentialModel ⟨sampleTable, []⟩ 7).2 =
        (none, some .ErrRecordNotFound) ∧
      (fetchCommentByID sampleApp ⟨sampleTable, []⟩ ⟨[], false⟩ (sampleRequest (some 7))).2 =
        (⟨[⟨404, none, .error⟩], false⟩, none, none) ∧
      (displayCommentHandler sampleApp ⟨sampleTable, []⟩ ⟨[], false⟩
          (sampleRequest (some 7))).w.written =
        [⟨404, none, .error⟩, ⟨200, none, .credential none⟩] ∧
      (updateCommentHandler sampleApp ⟨sampleTable, []⟩ ⟨[], false⟩
          (sampleRequest (some 7))).panicked = true ∧
      (fetchCommentByID sampleApp ⟨sampleTable, []⟩ ⟨[], false⟩ (sampleRequest none)).2 =
        (⟨[⟨404, none, .error⟩, ⟨404, none, .error⟩], false⟩, none, none) := by
  refine ⟨rfl, rfl, rfl, rfl, rfl⟩

end HandlerProofs

end CredentialsApi
